import Mathlib

/-!
Shallow embedding of the `event_registry` Soroban contract
(`src/contract/contracts/event_registry/src/lib.rs`).

Addresses are opaque identities, modelled as natural numbers.  The host
environment (`Env`) is modelled as the portion of persistent storage the
contract uses: the admin singleton, the platform-fee singleton, the map
from event id to `EventInfo`, and the per-organizer index of event ids.
Authorization (`require_auth`) is modelled by passing the set of
identities the current invocation is authorized for; the ledger
timestamp is passed as an explicit `now` argument.  A failing call
commits nothing (all-or-nothing per call), so fallible operations return
`Except Failure (α × Env)` and an error carries no new state.
-/

/-- Opaque on-chain identity (Soroban `Address`). -/
abbrev Address := Nat

/-- `types::EventInfo`: the stored record for one event. -/
structure EventInfo where
  event_id : String
  organizer_address : Address
  payment_address : Address
  platform_fee_percent : Nat
  is_active : Bool
  created_at : Nat
deriving DecidableEq, Repr

/-- `types::PaymentInfo`: the projection returned by `get_event_payment_info`. -/
structure PaymentInfo where
  payment_address : Address
  platform_fee_percent : Nat
deriving DecidableEq, Repr

/-- Modelled from the spec: `error.rs` is not under `src/`; the error
taxonomy is taken from spec §7: `AlreadyInitialized`, `InvalidFeePercent`,
`EventAlreadyExists`, `EventNotFound`, `EventInactive`, `NotInitialized`. -/
inductive EventRegistryError where
  | AlreadyInitialized
  | InvalidFeePercent
  | EventAlreadyExists
  | EventNotFound
  | EventInactive
  | NotInitialized
deriving DecidableEq, Repr

/-- Outcome of a failed call: either a typed contract error returned as
`Err`, or a host trap raised by a failed `require_auth`. -/
inductive Failure where
  | contractError (e : EventRegistryError)
  | authTrap
deriving DecidableEq, Repr

/-- The contract-visible persistent state. -/
structure Env where
  admin : Option Address
  platformFee : Option Nat
  events : List (String × EventInfo)
  organizerIndex : List (Address × List String)
deriving DecidableEq, Repr

/-- The state before any call: nothing stored. -/
def Env.empty : Env := ⟨none, none, [], []⟩

/-- Association-list lookup of an event record by its id key. -/
def lookupEvent : List (String × EventInfo) → String → Option EventInfo
  | [], _ => none
  | (k, v) :: rest, id => if k = id then some v else lookupEvent rest id

/-- Association-list key-membership test, used by the store's `exists`. -/
def containsEvent : List (String × EventInfo) → String → Bool
  | [], _ => false
  | (k, _) :: rest, id => if k = id then true else containsEvent rest id

/-- Insert-or-overwrite of an event record, keyed by `info.event_id`. -/
def storeAssoc : List (String × EventInfo) → EventInfo → List (String × EventInfo)
  | [], info => [(info.event_id, info)]
  | (k, v) :: rest, info =>
      if k = info.event_id then (k, info) :: rest
      else (k, v) :: storeAssoc rest info

/-- Lookup of an organizer's index, empty when no entry exists. -/
def lookupIndex : List (Address × List String) → Address → List String
  | [], _ => []
  | (k, v) :: rest, org => if k = org then v else lookupIndex rest org

/-- Append one event id at the end of an organizer's index,
creating the entry when absent. -/
def appendIndex : List (Address × List String) → Address → String →
    List (Address × List String)
  | [], org, id => [(org, [id])]
  | (k, v) :: rest, org, id =>
      if k = org then (k, v ++ [id]) :: rest
      else (k, v) :: appendIndex rest org id

namespace storage

/-- `storage::get_admin`: the admin singleton, `None` when unset. -/
def get_admin (e : Env) : Option Address := e.admin

/-- `storage::set_admin`. -/
def set_admin (e : Env) (a : Address) : Env := { e with admin := some a }

/-- `storage::has_platform_fee`: whether the fee singleton is set. -/
def has_platform_fee (e : Env) : Bool := e.platformFee.isSome

/-- Modelled from the spec: `storage.rs` is not under `src/`; spec §4.5
says the fee read yields an implementation-defined default (0) when the
fee singleton is absent, rather than throwing. -/
def get_platform_fee (e : Env) : Nat := e.platformFee.getD 0

/-- `storage::set_platform_fee`. -/
def set_platform_fee (e : Env) (f : Nat) : Env := { e with platformFee := some f }

/-- `storage::get_event`: lookup of the record stored under `event:<id>`. -/
def get_event (e : Env) (id : String) : Option EventInfo := lookupEvent e.events id

/-- `storage::event_exists`: the store's key-existence check. -/
def event_exists (e : Env) (id : String) : Bool := containsEvent e.events id

/-- Modelled from the spec: `storage.rs` is not under `src/`.  In
`lib.rs` the only storage write of `register_event` is
`storage::store_event`, so the organizer-index maintenance the spec
describes (§3, §4.2: append-on-write, append-only, never pruned) must
live inside this one function, which `update_event_status` and the
public raw `store_event` also call.  It inserts-or-overwrites the record
keyed by its `event_id` and appends that id to its organizer's index
when not already present, keeping the index duplicate-free as the spec's
data model describes. -/
def store_event (e : Env) (info : EventInfo) : Env :=
  if info.event_id ∈ lookupIndex e.organizerIndex info.organizer_address then
    { e with events := storeAssoc e.events info }
  else
    { e with events := storeAssoc e.events info,
             organizerIndex :=
               appendIndex e.organizerIndex info.organizer_address info.event_id }

/-- `storage::get_organizer_events`: the organizer's index, possibly empty. -/
def get_organizer_events (e : Env) (org : Address) : List String :=
  lookupIndex e.organizerIndex org

end storage

/-- `Address::require_auth`, modelled as membership of the identity in
the set of identities the current invocation is authorized for. -/
def require_auth (auths : List Address) (a : Address) : Bool := a ∈ auths

namespace EventRegistry

/-- `EventRegistry::initialize`. -/
def initializeContract (e : Env) (admin : Address) (platform_fee_percent : Nat) :
    Except Failure (Unit × Env) :=
  if (storage.get_admin e).isSome || storage.has_platform_fee e then
    .error (.contractError .EventAlreadyExists)
  else if platform_fee_percent > 10000 then
    .error (.contractError .InvalidFeePercent)
  else
    .ok ((), storage.set_platform_fee (storage.set_admin e admin) platform_fee_percent)

/-- `EventRegistry::register_event`.  Its only storage write is
`storage.store_event`, exactly as in `lib.rs`. -/
def register_event (auths : List Address) (now : Nat) (e : Env)
    (event_id : String) (organizer_address payment_address : Address) :
    Except Failure (Unit × Env) :=
  if ¬ require_auth auths organizer_address then .error .authTrap
  else if storage.event_exists e event_id then
    .error (.contractError .EventAlreadyExists)
  else
    let platform_fee_percent := storage.get_platform_fee e
    let event_info : EventInfo :=
      { event_id := event_id
        organizer_address := organizer_address
        payment_address := payment_address
        platform_fee_percent := platform_fee_percent
        is_active := true
        created_at := now }
    .ok ((), storage.store_event e event_info)

/-- `EventRegistry::get_event_payment_info`.  Pure read: no state change. -/
def get_event_payment_info (e : Env) (event_id : String) :
    Except Failure PaymentInfo :=
  match storage.get_event e event_id with
  | some event_info =>
      if ¬ event_info.is_active then .error (.contractError .EventInactive)
      else .ok { payment_address := event_info.payment_address
                 platform_fee_percent := event_info.platform_fee_percent }
  | none => .error (.contractError .EventNotFound)

/-- `EventRegistry::update_event_status`. -/
def update_event_status (auths : List Address) (e : Env)
    (event_id : String) (is_active : Bool) : Except Failure (Unit × Env) :=
  match storage.get_event e event_id with
  | some event_info =>
      if ¬ require_auth auths event_info.organizer_address then .error .authTrap
      else .ok ((), storage.store_event e { event_info with is_active := is_active })
  | none => .error (.contractError .EventNotFound)

/-- `EventRegistry::store_event` (legacy raw overwrite): no authorization
and no existence check; total, never fails. -/
def store_event (e : Env) (event_info : EventInfo) : Env :=
  storage.store_event e event_info

/-- `EventRegistry::get_event`.  Pure read. -/
def get_event (e : Env) (event_id : String) : Option EventInfo :=
  storage.get_event e event_id

/-- `EventRegistry::event_exists`.  Pure read. -/
def event_exists (e : Env) (event_id : String) : Bool :=
  storage.event_exists e event_id

/-- `EventRegistry::get_organizer_events`.  Pure read. -/
def get_organizer_events (e : Env) (organizer : Address) : List String :=
  storage.get_organizer_events e organizer

/-- `EventRegistry::set_platform_fee`. -/
def set_platform_fee (auths : List Address) (e : Env) (new_fee_percent : Nat) :
    Except Failure (Unit × Env) :=
  match storage.get_admin e with
  | none => .error (.contractError .NotInitialized)
  | some admin =>
      if ¬ require_auth auths admin then .error .authTrap
      else if new_fee_percent > 10000 then
        .error (.contractError .InvalidFeePercent)
      else .ok ((), storage.set_platform_fee e new_fee_percent)

/-- `EventRegistry::get_platform_fee`.  Pure read. -/
def get_platform_fee (e : Env) : Nat := storage.get_platform_fee e

/-- `EventRegistry::get_admin`.  Pure read. -/
def get_admin (e : Env) : Except Failure Address :=
  match storage.get_admin e with
  | some a => .ok a
  | none => .error (.contractError .NotInitialized)

end EventRegistry

/-- One invocation of a state-changing or state-reading public operation,
with its host-supplied authorization set and timestamp. -/
inductive Op where
  | init (admin : Address) (fee : Nat)
  | reg (auths : List Address) (now : Nat) (event_id : String)
      (organizer payment : Address)
  | upd (auths : List Address) (event_id : String) (is_active : Bool)
  | setFee (auths : List Address) (fee : Nat)
  | storeEv (info : EventInfo)
  | readPaymentInfo (event_id : String)
  | readEvent (event_id : String)
  | readExists (event_id : String)
  | readOrganizerEvents (organizer : Address)
  | readFee
  | readAdmin
deriving Repr

/-- Host-level semantics of one call: a failed call commits nothing, so
the state is unchanged on any `Failure`; pure reads never change state. -/
def applyOp (e : Env) : Op → Env
  | .init a f =>
      match EventRegistry.initializeContract e a f with
      | .ok (_, e') => e' | .error _ => e
  | .reg auths now id org pay =>
      match EventRegistry.register_event auths now e id org pay with
      | .ok (_, e') => e' | .error _ => e
  | .upd auths id b =>
      match EventRegistry.update_event_status auths e id b with
      | .ok (_, e') => e' | .error _ => e
  | .setFee auths f =>
      match EventRegistry.set_platform_fee auths e f with
      | .ok (_, e') => e' | .error _ => e
  | .storeEv info => EventRegistry.store_event e info
  | .readPaymentInfo _ => e
  | .readEvent _ => e
  | .readExists _ => e
  | .readOrganizerEvents _ => e
  | .readFee => e
  | .readAdmin => e

/-- Running a sequence of calls from a state. -/
def runOps (e : Env) (ops : List Op) : Env := ops.foldl applyOp e

/-- The fee-range invariant: whenever the global fee singleton is set,
its value is at most 10000 basis points. -/
def feeOk (e : Env) : Prop := ∀ f, e.platformFee = some f → f ≤ 10000

instance (e : Env) : Decidable (feeOk e) := by
  unfold feeOk
  cases e.platformFee with
  | none => exact .isTrue (by simp)
  | some f =>
      exact decidable_of_iff (f ≤ 10000) (by simp)

/-- Whether an `Op` is a `register_event` invocation. -/
def Op.isRegister : Op → Bool
  | .reg _ _ _ _ _ => true
  | _ => false

/-- Every stored record's id is listed in its organizer's index.  This
holds in every state reachable from the empty state, because every write
of a record goes through `storage.store_event`. -/
def recordsIndexed (e : Env) : Prop :=
  ∀ p : String × EventInfo, p ∈ e.events →
    p.2.event_id ∈ lookupIndex e.organizerIndex p.2.organizer_address

instance {ε α : Type} [DecidableEq ε] [DecidableEq α] : DecidableEq (Except ε α) :=
  fun x y =>
    match x, y with
    | .ok a, .ok b => decidable_of_iff (a = b) (by simp)
    | .ok _, .error _ => .isFalse (by simp)
    | .error _, .ok _ => .isFalse (by simp)
    | .error a, .error b => decidable_of_iff (a = b) (by simp)

/-! ## Basic lemmas about the store primitives -/

theorem lookupEvent_storeAssoc_self (l : List (String × EventInfo)) (info : EventInfo) :
    lookupEvent (storeAssoc l info) info.event_id = some info := by
  induction l with
  | nil => simp [storeAssoc, lookupEvent]
  | cons hd tl ih =>
      obtain ⟨k, v⟩ := hd
      by_cases hk : k = info.event_id
      · simp [storeAssoc, lookupEvent, hk]
      · simp [storeAssoc, lookupEvent, hk, ih]

theorem lookupEvent_storeAssoc_ne (l : List (String × EventInfo)) (info : EventInfo)
    (id : String) (h : id ≠ info.event_id) :
    lookupEvent (storeAssoc l info) id = lookupEvent l id := by
  induction l with
  | nil => simp [storeAssoc, lookupEvent, Ne.symm h]
  | cons hd tl ih =>
      obtain ⟨k, v⟩ := hd
      by_cases hk : k = info.event_id
      · subst hk
        simp [storeAssoc, lookupEvent, Ne.symm h]
      · by_cases hk2 : k = id <;>
          simp [storeAssoc, lookupEvent, hk, hk2, ih, h, Ne.symm h]

theorem containsEvent_eq_isSome (l : List (String × EventInfo)) (id : String) :
    containsEvent l id = (lookupEvent l id).isSome := by
  induction l with
  | nil => simp [containsEvent, lookupEvent]
  | cons hd tl ih =>
      obtain ⟨k, v⟩ := hd
      by_cases hk : k = id <;> simp [containsEvent, lookupEvent, hk, ih]

theorem lookupIndex_appendIndex_self (l : List (Address × List String))
    (org : Address) (id : String) :
    lookupIndex (appendIndex l org id) org = lookupIndex l org ++ [id] := by
  induction l with
  | nil => simp [appendIndex, lookupIndex]
  | cons hd tl ih =>
      obtain ⟨k, v⟩ := hd
      by_cases hk : k = org
      · simp [appendIndex, lookupIndex, hk]
      · simp [appendIndex, lookupIndex, hk, ih]

theorem lookupIndex_appendIndex_ne (l : List (Address × List String))
    (org : Address) (id : String) (k : Address) (h : k ≠ org) :
    lookupIndex (appendIndex l org id) k = lookupIndex l k := by
  induction l with
  | nil => simp [appendIndex, lookupIndex, Ne.symm h]
  | cons hd tl ih =>
      obtain ⟨k2, v⟩ := hd
      by_cases hk : k2 = org
      · subst hk
        simp [appendIndex, lookupIndex, Ne.symm h]
      · by_cases hk2 : k2 = k <;>
          simp [appendIndex, lookupIndex, hk, hk2, ih, h]

theorem lookupEvent_mem (l : List (String × EventInfo)) (id : String)
    (v : EventInfo) (h : lookupEvent l id = some v) : (id, v) ∈ l := by
  induction l with
  | nil => simp [lookupEvent] at h
  | cons hd tl ih =>
      obtain ⟨k, w⟩ := hd
      by_cases hk : k = id
      · subst hk
        simp [lookupEvent] at h
        simp [h]
      · simp [lookupEvent, hk] at h
        simp [ih h]

theorem mem_storeAssoc (l : List (String × EventInfo)) (info : EventInfo)
    (p : String × EventInfo) (h : p ∈ storeAssoc l info) :
    p ∈ l ∨ p = (info.event_id, info) := by
  induction l with
  | nil =>
      simp [storeAssoc] at h
      exact Or.inr h
  | cons hd tl ih =>
      obtain ⟨k, w⟩ := hd
      by_cases hk : k = info.event_id
      · subst hk
        simp [storeAssoc] at h
        rcases h with h | h
        · exact Or.inr (by simp [h])
        · exact Or.inl (by simp [h])
      · simp [storeAssoc, hk] at h
        rcases h with h | h
        · exact Or.inl (by simp [h])
        · rcases ih h with h2 | h2
          · exact Or.inl (by simp [h2])
          · exact Or.inr h2

theorem mem_lookupIndex_appendIndex (l : List (Address × List String))
    (org : Address) (id : String) (k : Address) (x : String)
    (h : x ∈ lookupIndex l k) : x ∈ lookupIndex (appendIndex l org id) k := by
  by_cases hk : k = org
  · subst hk
    rw [lookupIndex_appendIndex_self]
    exact List.mem_append_left _ h
  · rwa [lookupIndex_appendIndex_ne l org id k hk]

/-! ## Projections of `storage.store_event` -/

theorem store_event_events (e : Env) (info : EventInfo) :
    (storage.store_event e info).events = storeAssoc e.events info := by
  unfold storage.store_event
  split <;> rfl

theorem store_event_platformFee (e : Env) (info : EventInfo) :
    (storage.store_event e info).platformFee = e.platformFee := by
  unfold storage.store_event
  split <;> rfl

theorem store_event_admin (e : Env) (info : EventInfo) :
    (storage.store_event e info).admin = e.admin := by
  unfold storage.store_event
  split <;> rfl

theorem store_event_organizerIndex (e : Env) (info : EventInfo) :
    (storage.store_event e info).organizerIndex =
      if info.event_id ∈ lookupIndex e.organizerIndex info.organizer_address
      then e.organizerIndex
      else appendIndex e.organizerIndex info.organizer_address info.event_id := by
  unfold storage.store_event
  split <;> simp_all

theorem store_event_index_tail (e : Env) (info : EventInfo) (org : Address) :
    ∃ tail, lookupIndex (storage.store_event e info).organizerIndex org =
      lookupIndex e.organizerIndex org ++ tail := by
  rw [store_event_organizerIndex]
  split
  · exact ⟨[], by simp⟩
  · by_cases hk : org = info.organizer_address
    · subst hk
      exact ⟨[info.event_id], lookupIndex_appendIndex_self _ _ _⟩
    · exact ⟨[], by
        simp [lookupIndex_appendIndex_ne e.organizerIndex
          info.organizer_address info.event_id org hk]⟩

theorem store_event_mem_index (e : Env) (info : EventInfo) :
    info.event_id ∈
      lookupIndex (storage.store_event e info).organizerIndex
        info.organizer_address := by
  rw [store_event_organizerIndex]
  split
  · assumption
  · rw [lookupIndex_appendIndex_self]
    simp

theorem store_event_recordsIndexed (e : Env) (info : EventInfo)
    (h : recordsIndexed e) : recordsIndexed (storage.store_event e info) := by
  intro p hp
  rw [store_event_events] at hp
  rcases mem_storeAssoc e.events info p hp with hp2 | hp2
  · have hx := h p hp2
    rw [store_event_organizerIndex]
    split
    · exact hx
    · exact mem_lookupIndex_appendIndex _ _ _ _ _ hx
  · subst hp2
    exact store_event_mem_index e info

/-! ## Inversion lemmas: what a successful call implies -/

theorem initializeContract_ok (e : Env) (a : Address) (f : Nat) (u : Unit) (e' : Env)
    (h : EventRegistry.initializeContract e a f = .ok (u, e')) :
    storage.get_admin e = none ∧ storage.has_platform_fee e = false ∧ f ≤ 10000 ∧
      e' = storage.set_platform_fee (storage.set_admin e a) f := by
  unfold EventRegistry.initializeContract at h
  split at h
  · exact absurd h (by simp)
  · rename_i hguard
    split at h
    · exact absurd h (by simp)
    · rename_i hfee
      simp only [Except.ok.injEq, Prod.mk.injEq] at h
      simp only [Bool.or_eq_true, Option.isSome_iff_exists, not_or, not_exists] at hguard
      refine ⟨?_, ?_, by omega, h.2.symm⟩
      · cases hadm : storage.get_admin e with
        | none => rfl
        | some x => exact absurd hadm (hguard.1 x)
      · simp only [Bool.not_eq_true] at hguard
        exact hguard.2

theorem register_event_ok (auths : List Address) (now : Nat) (e : Env)
    (id : String) (org pay : Address) (u : Unit) (e' : Env)
    (h : EventRegistry.register_event auths now e id org pay = .ok (u, e')) :
    require_auth auths org = true ∧ storage.event_exists e id = false ∧
      e' = storage.store_event e
        ⟨id, org, pay, storage.get_platform_fee e, true, now⟩ := by
  unfold EventRegistry.register_event at h
  split at h
  · exact absurd h (by simp)
  · rename_i hauth
    split at h
    · exact absurd h (by simp)
    · rename_i hex
      simp only [Except.ok.injEq, Prod.mk.injEq] at h
      simp only [Bool.not_eq_true] at hauth hex
      exact ⟨by simpa using hauth, hex, h.2.symm⟩

theorem set_platform_fee_ok (auths : List Address) (e : Env) (f : Nat) (u : Unit) (e' : Env)
    (h : EventRegistry.set_platform_fee auths e f = .ok (u, e')) :
    ∃ adm, storage.get_admin e = some adm ∧ require_auth auths adm = true ∧
      f ≤ 10000 ∧ e' = storage.set_platform_fee e f := by
  unfold EventRegistry.set_platform_fee at h
  split at h
  · exact absurd h (by simp)
  · rename_i adm hadm
    split at h
    · exact absurd h (by simp)
    · rename_i hauth
      split at h
      · exact absurd h (by simp)
      · rename_i hfee
        simp only [Except.ok.injEq, Prod.mk.injEq] at h
        exact ⟨adm, hadm, by simpa using hauth, by omega, h.2.symm⟩

theorem update_event_status_ok (auths : List Address) (e : Env)
    (id : String) (b : Bool) (u : Unit) (e' : Env)
    (h : EventRegistry.update_event_status auths e id b = .ok (u, e')) :
    ∃ info, storage.get_event e id = some info ∧
      require_auth auths info.organizer_address = true ∧
      e' = storage.store_event e { info with is_active := b } := by
  unfold EventRegistry.update_event_status at h
  split at h
  · rename_i info hinfo
    split at h
    · exact absurd h (by simp)
    · rename_i hauth
      simp only [Except.ok.injEq, Prod.mk.injEq] at h
      exact ⟨info, hinfo, by simpa using hauth, h.2.symm⟩
  · exact absurd h (by simp)

/-! ## Frame and invariant-preservation helpers -/

theorem feeOk_applyOp (e : Env) (op : Op) (h : feeOk e) : feeOk (applyOp e op) := by
  cases op with
  | init a f =>
      cases hres : EventRegistry.initializeContract e a f with
      | ok p =>
          obtain ⟨u, e'⟩ := p
          obtain ⟨-, -, hle, he'⟩ := initializeContract_ok e a f u e' hres
          simp only [applyOp, hres]
          intro f' hf'
          rw [he'] at hf'
          simp [storage.set_platform_fee, storage.set_admin] at hf'
          omega
      | error fl => simpa only [applyOp, hres] using h
  | reg auths now id org pay =>
      cases hres : EventRegistry.register_event auths now e id org pay with
      | ok p =>
          obtain ⟨u, e'⟩ := p
          obtain ⟨-, -, he'⟩ := register_event_ok auths now e id org pay u e' hres
          simp only [applyOp, hres]
          intro f' hf'
          apply h f'
          rw [he'] at hf'
          rwa [store_event_platformFee] at hf'
      | error fl => simpa only [applyOp, hres] using h
  | upd auths id b =>
      cases hres : EventRegistry.update_event_status auths e id b with
      | ok p =>
          obtain ⟨u, e'⟩ := p
          obtain ⟨info, -, -, he'⟩ := update_event_status_ok auths e id b u e' hres
          simp only [applyOp, hres]
          intro f' hf'
          apply h f'
          rw [he'] at hf'
          rwa [store_event_platformFee] at hf'
      | error fl => simpa only [applyOp, hres] using h
  | setFee auths f =>
      cases hres : EventRegistry.set_platform_fee auths e f with
      | ok p =>
          obtain ⟨u, e'⟩ := p
          obtain ⟨adm, -, -, hle, he'⟩ := set_platform_fee_ok auths e f u e' hres
          simp only [applyOp, hres]
          intro f' hf'
          rw [he'] at hf'
          simp [storage.set_platform_fee] at hf'
          omega
      | error fl => simpa only [applyOp, hres] using h
  | storeEv info =>
      intro f' hf'
      apply h f'
      simpa only [applyOp, EventRegistry.store_event,
        store_event_platformFee] using hf'
  | readPaymentInfo id => exact h
  | readEvent id => exact h
  | readExists id => exact h
  | readOrganizerEvents org => exact h
  | readFee => exact h
  | readAdmin => exact h

theorem feeOk_runOps (ops : List Op) (e : Env) (h : feeOk e) : feeOk (runOps e ops) := by
  induction ops generalizing e with
  | nil => exact h
  | cons op rest ih =>
      have : runOps e (op :: rest) = runOps (applyOp e op) rest := rfl
      rw [this]
      exact ih (applyOp e op) (feeOk_applyOp e op h)

/-! ## Claims -/

/-- C1: Fee snapshot invariant — for an event registered while the global
fee was `f = storage.get_platform_fee e`, a later successful
`set_platform_fee g` does not change the fee stored in the event's
record: `get_event_payment_info` still returns `platform_fee_percent = f`
while `get_platform_fee` returns `g`. -/
theorem C1_fee_snapshot_invariant (auths1 auths2 : List Address) (now : Nat)
    (e e1 e2 : Env) (id : String) (org pay : Address) (g : Nat)
    (hreg : EventRegistry.register_event auths1 now e id org pay = .ok ((), e1))
    (hset : EventRegistry.set_platform_fee auths2 e1 g = .ok ((), e2)) :
    EventRegistry.get_event_payment_info e2 id =
      .ok { payment_address := pay,
            platform_fee_percent := storage.get_platform_fee e } ∧
    EventRegistry.get_platform_fee e2 = g := by
  obtain ⟨-, -, he1⟩ := register_event_ok auths1 now e id org pay () e1 hreg
  obtain ⟨adm, -, -, -, he2⟩ := set_platform_fee_ok auths2 e1 g () e2 hset
  subst he1
  subst he2
  constructor
  · have hl := lookupEvent_storeAssoc_self e.events
      ⟨id, org, pay, storage.get_platform_fee e, true, now⟩
    simp [EventRegistry.get_event_payment_info, storage.get_event,
      storage.set_platform_fee, store_event_events, hl]
  · simp [EventRegistry.get_platform_fee, storage.get_platform_fee,
      storage.set_platform_fee]

/-- Witness for C1 at a concrete run: fee 250 at registration,
global fee later raised to 500. -/
theorem C1_fee_snapshot_invariant_witness :
    EventRegistry.get_event_payment_info
        ⟨some 1, some 500, [("evt1", ⟨"evt1", 5, 6, 250, true, 100⟩)],
          [(5, ["evt1"])]⟩ "evt1" =
      .ok { payment_address := 6,
            platform_fee_percent :=
              storage.get_platform_fee ⟨some 1, some 250, [], []⟩ } ∧
    EventRegistry.get_platform_fee
        ⟨some 1, some 500, [("evt1", ⟨"evt1", 5, 6, 250, true, 100⟩)],
          [(5, ["evt1"])]⟩ = 500 :=
  C1_fee_snapshot_invariant [5] [1] 100 ⟨some 1, some 250, [], []⟩
    ⟨some 1, some 250, [("evt1", ⟨"evt1", 5, 6, 250, true, 100⟩)], [(5, ["evt1"])]⟩
    ⟨some 1, some 500, [("evt1", ⟨"evt1", 5, 6, 250, true, 100⟩)], [(5, ["evt1"])]⟩
    "evt1" 5 6 500 (by rfl) (by rfl)

/-- C2 counterexample: in a state where GlobalConfig exists, a second
`initialize` fails with `EventAlreadyExists`, not `AlreadyInitialized`. -/
theorem C2_counterexample :
    (storage.get_admin ⟨some 1, some 250, [], []⟩).isSome = true ∧
    EventRegistry.initializeContract ⟨some 1, some 250, [], []⟩ 2 300 =
      .error (.contractError .EventAlreadyExists) ∧
    ¬ EventRegistry.initializeContract ⟨some 1, some 250, [], []⟩ 2 300 =
      .error (.contractError .AlreadyInitialized) := by decide

/-- C2 (amended): whenever GlobalConfig already exists (admin set or fee
set), `initialize` fails with `EventAlreadyExists` — the code reuses that
variant for the already-initialized guard — regardless of its arguments,
and the stored admin and fee are unchanged. -/
theorem C2_initialize_exactly_once (e : Env) (a : Address) (f : Nat)
    (h : (storage.get_admin e).isSome = true ∨ storage.has_platform_fee e = true) :
    EventRegistry.initializeContract e a f =
      .error (.contractError .EventAlreadyExists) ∧
    applyOp e (.init a f) = e := by
  have hguard : ((storage.get_admin e).isSome || storage.has_platform_fee e) = true := by
    rcases h with h | h <;> simp [h]
  have h1 : EventRegistry.initializeContract e a f =
      .error (.contractError .EventAlreadyExists) := by
    unfold EventRegistry.initializeContract
    simp [hguard]
  exact ⟨h1, by simp [applyOp, h1]⟩

/-- Witness for C2 (amended) at a concrete initialized state. -/
theorem C2_initialize_exactly_once_witness :
    EventRegistry.initializeContract ⟨some 1, some 250, [], []⟩ 2 300 =
      .error (.contractError .EventAlreadyExists) ∧
    applyOp ⟨some 1, some 250, [], []⟩ (.init 2 300) = ⟨some 1, some 250, [], []⟩ :=
  C2_initialize_exactly_once ⟨some 1, some 250, [], []⟩ 2 300 (Or.inl (by decide))

/-- C3 counterexample: with GlobalConfig absent, `register_event` does not
fail with `NotInitialized`; it succeeds and stores a record whose
snapshotted fee is the storage default 0. -/
theorem C3_counterexample :
    storage.get_admin Env.empty = none ∧
    storage.has_platform_fee Env.empty = false ∧
    EventRegistry.register_event [5] 100 Env.empty "e1" 5 6 =
      .ok ((), ⟨none, none, [("e1", ⟨"e1", 5, 6, 0, true, 100⟩)], [(5, ["e1"])]⟩) ∧
    ¬ EventRegistry.register_event [5] 100 Env.empty "e1" 5 6 =
      .error (.contractError .NotInitialized) := by decide

/-- C3 (amended): `register_event` performs no initialization check; when
the fee singleton is absent, an authorized registration of a fresh event
id succeeds and snapshots the storage default fee 0 into the record. -/
theorem C3_register_without_config (auths : List Address) (now : Nat) (e : Env)
    (id : String) (org pay : Address)
    (hfee : e.platformFee = none)
    (hauth : require_auth auths org = true)
    (hex : storage.event_exists e id = false) :
    EventRegistry.register_event auths now e id org pay =
      .ok ((), storage.store_event e ⟨id, org, pay, 0, true, now⟩) := by
  unfold EventRegistry.register_event
  simp [hauth, hex, storage.get_platform_fee, hfee]

/-- Witness for C3 (amended) at the empty state. -/
theorem C3_register_without_config_witness :
    EventRegistry.register_event [5] 100 Env.empty "e1" 5 6 =
      .ok ((), storage.store_event Env.empty ⟨"e1", 5, 6, 0, true, 100⟩) :=
  C3_register_without_config [5] 100 Env.empty "e1" 5 6 rfl (by decide) rfl

/-- C4 counterexample: a call to `initialize` with fee 20000 (> 10000) on
an already-initialized state fails with `EventAlreadyExists`, not
`InvalidFeePercent` — the initialization guard is checked first. -/
theorem C4_counterexample :
    EventRegistry.initializeContract ⟨some 1, some 250, [], []⟩ 2 20000 =
      .error (.contractError .EventAlreadyExists) ∧
    ¬ EventRegistry.initializeContract ⟨some 1, some 250, [], []⟩ 2 20000 =
      .error (.contractError .InvalidFeePercent) := by decide

/-- C4 (amended): after any sequence of public operations from the empty
state the stored global fee, when set, is at most 10000; `initialize` on
an uninitialized state with a fee above 10000 fails with
`InvalidFeePercent` and changes nothing; `set_platform_fee` authorized by
the stored admin with a fee above 10000 fails with `InvalidFeePercent`
and changes nothing.  (Other failure causes — already initialized, not
initialized, unauthorized — take precedence over the fee check.) -/
theorem C4_fee_range :
    (∀ ops : List Op, feeOk (runOps Env.empty ops)) ∧
    (∀ (e : Env) (a : Address) (f : Nat),
      storage.get_admin e = none → storage.has_platform_fee e = false →
      f > 10000 →
      EventRegistry.initializeContract e a f =
        .error (.contractError .InvalidFeePercent) ∧
      applyOp e (.init a f) = e) ∧
    (∀ (auths : List Address) (e : Env) (adm : Address) (f : Nat),
      storage.get_admin e = some adm → require_auth auths adm = true →
      f > 10000 →
      EventRegistry.set_platform_fee auths e f =
        .error (.contractError .InvalidFeePercent) ∧
      applyOp e (.setFee auths f) = e) := by
  refine ⟨?_, ?_, ?_⟩
  · intro ops
    exact feeOk_runOps ops Env.empty (by intro f h; simp [Env.empty] at h)
  · intro e a f hadm hhas hf
    have h1 : EventRegistry.initializeContract e a f =
        .error (.contractError .InvalidFeePercent) := by
      unfold EventRegistry.initializeContract
      simp [hadm, hhas, hf]
    exact ⟨h1, by simp [applyOp, h1]⟩
  · intro auths e adm f hadm hauth hf
    have h1 : EventRegistry.set_platform_fee auths e f =
        .error (.contractError .InvalidFeePercent) := by
      unfold EventRegistry.set_platform_fee
      simp [hadm, hauth, hf]
    exact ⟨h1, by simp [applyOp, h1]⟩

/-- Witness for C4 at concrete inputs: a concrete call sequence, an
over-range `initialize` on the empty state, and an over-range
`set_platform_fee` by the admin. -/
theorem C4_fee_range_witness :
    feeOk (runOps Env.empty [.init 1 250, .setFee [1] 500]) ∧
    EventRegistry.initializeContract Env.empty 1 20000 =
      .error (.contractError .InvalidFeePercent) ∧
    EventRegistry.set_platform_fee [1] ⟨some 1, some 250, [], []⟩ 20000 =
      .error (.contractError .InvalidFeePercent) :=
  ⟨C4_fee_range.1 [.init 1 250, .setFee [1] 500],
   (C4_fee_range.2.1 Env.empty 1 20000 rfl rfl (by decide)).1,
   (C4_fee_range.2.2 [1] ⟨some 1, some 250, [], []⟩ 1 20000 rfl (by decide)
      (by decide)).1⟩

/-- C5: `get_event_payment_info` fails with `EventNotFound` when no record
exists, fails with `EventInactive` when the record is inactive, and
otherwise returns exactly the stored record's `{payment_address,
platform_fee_percent}`.  It is a pure read (`Env → Except Failure
PaymentInfo`), so no case changes state. -/
theorem C5_payment_info_cases (e : Env) (id : String) :
    (storage.get_event e id = none →
      EventRegistry.get_event_payment_info e id =
        .error (.contractError .EventNotFound)) ∧
    (∀ info, storage.get_event e id = some info → info.is_active = false →
      EventRegistry.get_event_payment_info e id =
        .error (.contractError .EventInactive)) ∧
    (∀ info, storage.get_event e id = some info → info.is_active = true →
      EventRegistry.get_event_payment_info e id =
        .ok { payment_address := info.payment_address,
              platform_fee_percent := info.platform_fee_percent }) := by
  refine ⟨?_, ?_, ?_⟩
  · intro h
    simp [EventRegistry.get_event_payment_info, h]
  · intro info h hi
    simp [EventRegistry.get_event_payment_info, h, hi]
  · intro info h hi
    simp [EventRegistry.get_event_payment_info, h, hi]

/-- Witness for C5: the three cases at one concrete state holding an
inactive event "off" and an active event "on". -/
theorem C5_payment_info_cases_witness :
    EventRegistry.get_event_payment_info
        ⟨some 1, some 250, [("off", ⟨"off", 5, 6, 250, false, 90⟩),
          ("on", ⟨"on", 5, 7, 250, true, 100⟩)], [(5, ["off", "on"])]⟩ "nope" =
      .error (.contractError .EventNotFound) ∧
    EventRegistry.get_event_payment_info
        ⟨some 1, some 250, [("off", ⟨"off", 5, 6, 250, false, 90⟩),
          ("on", ⟨"on", 5, 7, 250, true, 100⟩)], [(5, ["off", "on"])]⟩ "off" =
      .error (.contractError .EventInactive) ∧
    EventRegistry.get_event_payment_info
        ⟨some 1, some 250, [("off", ⟨"off", 5, 6, 250, false, 90⟩),
          ("on", ⟨"on", 5, 7, 250, true, 100⟩)], [(5, ["off", "on"])]⟩ "on" =
      .ok { payment_address := 7, platform_fee_percent := 250 } :=
  ⟨(C5_payment_info_cases
      ⟨some 1, some 250, [("off", ⟨"off", 5, 6, 250, false, 90⟩),
        ("on", ⟨"on", 5, 7, 250, true, 100⟩)], [(5, ["off", "on"])]⟩ "nope").1 rfl,
   (C5_payment_info_cases
      ⟨some 1, some 250, [("off", ⟨"off", 5, 6, 250, false, 90⟩),
        ("on", ⟨"on", 5, 7, 250, true, 100⟩)], [(5, ["off", "on"])]⟩ "off").2.1
      ⟨"off", 5, 6, 250, false, 90⟩ rfl rfl,
   (C5_payment_info_cases
      ⟨some 1, some 250, [("off", ⟨"off", 5, 6, 250, false, 90⟩),
        ("on", ⟨"on", 5, 7, 250, true, 100⟩)], [(5, ["off", "on"])]⟩ "on").2.2
      ⟨"on", 5, 7, 250, true, 100⟩ rfl rfl⟩

/-- C6: `update_event_status` on an existing record by a caller who does
not control the record's stored organizer identity fails with an
authorization trap, and the state — in particular the record's
`is_active` value — is unchanged. -/
theorem C6_update_status_organizer_only (auths : List Address) (e : Env)
    (id : String) (b : Bool) (info : EventInfo)
    (hev : storage.get_event e id = some info)
    (hauth : require_auth auths info.organizer_address = false) :
    EventRegistry.update_event_status auths e id b = .error .authTrap ∧
    applyOp e (.upd auths id b) = e ∧
    (EventRegistry.get_event (applyOp e (.upd auths id b)) id).map
      EventInfo.is_active = some info.is_active := by
  have h1 : EventRegistry.update_event_status auths e id b = .error .authTrap := by
    unfold EventRegistry.update_event_status
    simp [hev, hauth]
  refine ⟨h1, by simp [applyOp, h1], ?_⟩
  simp [applyOp, h1, EventRegistry.get_event, hev]

/-- Witness for C6: caller authorized only for identity 7 cannot
deactivate an event whose organizer is 5. -/
theorem C6_update_status_organizer_only_witness :
    EventRegistry.update_event_status [7]
        ⟨some 1, some 250, [("on", ⟨"on", 5, 7, 250, true, 100⟩)], [(5, ["on"])]⟩
        "on" false = .error .authTrap ∧
    applyOp ⟨some 1, some 250, [("on", ⟨"on", 5, 7, 250, true, 100⟩)], [(5, ["on"])]⟩
        (.upd [7] "on" false) =
      ⟨some 1, some 250, [("on", ⟨"on", 5, 7, 250, true, 100⟩)], [(5, ["on"])]⟩ ∧
    (EventRegistry.get_event
        (applyOp ⟨some 1, some 250, [("on", ⟨"on", 5, 7, 250, true, 100⟩)],
          [(5, ["on"])]⟩ (.upd [7] "on" false)) "on").map EventInfo.is_active =
      some (⟨"on", 5, 7, 250, true, 100⟩ : EventInfo).is_active :=
  C6_update_status_organizer_only [7]
    ⟨some 1, some 250, [("on", ⟨"on", 5, 7, 250, true, 100⟩)], [(5, ["on"])]⟩
    "on" false ⟨"on", 5, 7, 250, true, 100⟩ rfl (by decide)

theorem recordsIndexed_applyOp (e : Env) (op : Op) (h : recordsIndexed e) :
    recordsIndexed (applyOp e op) := by
  cases op with
  | init a f =>
      cases hres : EventRegistry.initializeContract e a f with
      | ok p =>
          obtain ⟨u, e'⟩ := p
          obtain ⟨-, -, -, he'⟩ := initializeContract_ok e a f u e' hres
          simp only [applyOp, hres]
          rw [he']
          intro p hp
          simp only [storage.set_platform_fee, storage.set_admin] at hp ⊢
          exact h p hp
      | error fl => simpa only [applyOp, hres] using h
  | reg auths now id org pay =>
      cases hres : EventRegistry.register_event auths now e id org pay with
      | ok p =>
          obtain ⟨u, e'⟩ := p
          obtain ⟨-, -, he'⟩ := register_event_ok auths now e id org pay u e' hres
          simp only [applyOp, hres]
          rw [he']
          exact store_event_recordsIndexed e _ h
      | error fl => simpa only [applyOp, hres] using h
  | upd auths id b =>
      cases hres : EventRegistry.update_event_status auths e id b with
      | ok p =>
          obtain ⟨u, e'⟩ := p
          obtain ⟨info, -, -, he'⟩ := update_event_status_ok auths e id b u e' hres
          simp only [applyOp, hres]
          rw [he']
          exact store_event_recordsIndexed e _ h
      | error fl => simpa only [applyOp, hres] using h
  | setFee auths f =>
      cases hres : EventRegistry.set_platform_fee auths e f with
      | ok p =>
          obtain ⟨u, e'⟩ := p
          obtain ⟨adm, -, -, -, he'⟩ := set_platform_fee_ok auths e f u e' hres
          simp only [applyOp, hres]
          rw [he']
          intro p hp
          simp only [storage.set_platform_fee] at hp ⊢
          exact h p hp
      | error fl => simpa only [applyOp, hres] using h
  | storeEv info => exact store_event_recordsIndexed e info h
  | readPaymentInfo id => exact h
  | readEvent id => exact h
  | readExists id => exact h
  | readOrganizerEvents org => exact h
  | readFee => exact h
  | readAdmin => exact h

theorem recordsIndexed_runOps_from (ops : List Op) (e : Env)
    (h : recordsIndexed e) : recordsIndexed (runOps e ops) := by
  induction ops generalizing e with
  | nil => exact h
  | cons op rest ih =>
      have hstep : runOps e (op :: rest) = runOps (applyOp e op) rest := rfl
      rw [hstep]
      exact ih (applyOp e op) (recordsIndexed_applyOp e op h)

theorem recordsIndexed_runOps (ops : List Op) :
    recordsIndexed (runOps Env.empty ops) :=
  recordsIndexed_runOps_from ops Env.empty (by intro p hp; simp [Env.empty] at hp)

theorem upd_index_unchanged (auths : List Address) (e : Env) (id : String)
    (b : Bool) (h : recordsIndexed e) (org : Address) :
    EventRegistry.get_organizer_events (applyOp e (.upd auths id b)) org =
      EventRegistry.get_organizer_events e org := by
  cases hres : EventRegistry.update_event_status auths e id b with
  | ok p =>
      obtain ⟨u, e'⟩ := p
      obtain ⟨info, hinfo, -, he'⟩ := update_event_status_ok auths e id b u e' hres
      have hmem : info.event_id ∈ lookupIndex e.organizerIndex info.organizer_address :=
        h (id, info) (lookupEvent_mem e.events id info hinfo)
      simp only [applyOp, hres]
      rw [he']
      simp only [EventRegistry.get_organizer_events, storage.get_organizer_events]
      rw [store_event_organizerIndex]
      rw [if_pos (by simpa using hmem)]
  | error fl => simp [applyOp, hres]

/-- C7 counterexample: the index append lives in the storage layer's
`store_event`, so the public raw `store_event` — an operation other than
`register_event` — also appends to the organizer index: storing a record
for organizer 5 from a state with an empty index leaves "e9" in
organizer 5's index. -/
theorem C7_counterexample :
    EventRegistry.get_organizer_events ⟨some 1, some 250, [], []⟩ 5 = [] ∧
    EventRegistry.get_organizer_events
      (EventRegistry.store_event ⟨some 1, some 250, [], []⟩
        ⟨"e9", 5, 6, 250, true, 100⟩) 5 = ["e9"] := by decide

/-- C7 (amended): every successful `register_event(event_id, organizer, _)`
leaves `event_id` in that organizer's index, appending it at the end
when not already present, so a subsequent `get_organizer_events`
contains it; the index is append-only across every operation (it only
ever grows by appending at the end); `initialize`, `set_platform_fee`
and the reads never change it, and in every state reachable from the
empty state `update_event_status` never changes it; but because the
append is implemented inside the storage layer's `store_event`, the
public raw `store_event` can also append — `register_event` is not the
only appending operation. -/
theorem C7_organizer_index :
    (∀ (auths : List Address) (now : Nat) (e : Env) (id : String)
        (org pay : Address) (e' : Env),
      EventRegistry.register_event auths now e id org pay = .ok ((), e') →
      id ∈ EventRegistry.get_organizer_events e' org) ∧
    (∀ (auths : List Address) (now : Nat) (e : Env) (id : String)
        (org pay : Address) (e' : Env),
      EventRegistry.register_event auths now e id org pay = .ok ((), e') →
      ¬ id ∈ EventRegistry.get_organizer_events e org →
      EventRegistry.get_organizer_events e' org =
        EventRegistry.get_organizer_events e org ++ [id]) ∧
    (∀ (e : Env) (op : Op) (org : Address), ∃ tail,
      EventRegistry.get_organizer_events (applyOp e op) org =
        EventRegistry.get_organizer_events e org ++ tail) ∧
    (∀ (e : Env) (a : Address) (f : Nat) (org : Address),
      EventRegistry.get_organizer_events (applyOp e (.init a f)) org =
        EventRegistry.get_organizer_events e org) ∧
    (∀ (auths : List Address) (e : Env) (f : Nat) (org : Address),
      EventRegistry.get_organizer_events (applyOp e (.setFee auths f)) org =
        EventRegistry.get_organizer_events e org) ∧
    (∀ (ops : List Op) (auths : List Address) (id : String) (b : Bool)
        (org : Address),
      EventRegistry.get_organizer_events
          (applyOp (runOps Env.empty ops) (.upd auths id b)) org =
        EventRegistry.get_organizer_events (runOps Env.empty ops) org) := by
  have hinit : ∀ (e : Env) (a : Address) (f : Nat) (org : Address),
      EventRegistry.get_organizer_events (applyOp e (.init a f)) org =
        EventRegistry.get_organizer_events e org := by
    intro e a f org
    cases hres : EventRegistry.initializeContract e a f with
    | ok p =>
        obtain ⟨u, e'⟩ := p
        obtain ⟨-, -, -, he'⟩ := initializeContract_ok e a f u e' hres
        simp [applyOp, hres, he', EventRegistry.get_organizer_events,
          storage.get_organizer_events, storage.set_platform_fee,
          storage.set_admin]
    | error fl => simp [applyOp, hres]
  have hsetFee : ∀ (auths : List Address) (e : Env) (f : Nat) (org : Address),
      EventRegistry.get_organizer_events (applyOp e (.setFee auths f)) org =
        EventRegistry.get_organizer_events e org := by
    intro auths e f org
    cases hres : EventRegistry.set_platform_fee auths e f with
    | ok p =>
        obtain ⟨u, e'⟩ := p
        obtain ⟨adm, -, -, -, he'⟩ := set_platform_fee_ok auths e f u e' hres
        simp [applyOp, hres, he', EventRegistry.get_organizer_events,
          storage.get_organizer_events, storage.set_platform_fee]
    | error fl => simp [applyOp, hres]
  refine ⟨?_, ?_, ?_, hinit, hsetFee, ?_⟩
  · intro auths now e id org pay e' h
    obtain ⟨-, -, he'⟩ := register_event_ok auths now e id org pay () e' h
    subst he'
    simpa [EventRegistry.get_organizer_events, storage.get_organizer_events]
      using store_event_mem_index e
        ⟨id, org, pay, storage.get_platform_fee e, true, now⟩
  · intro auths now e id org pay e' h hnot
    obtain ⟨-, -, he'⟩ := register_event_ok auths now e id org pay () e' h
    subst he'
    simp only [EventRegistry.get_organizer_events,
      storage.get_organizer_events] at hnot ⊢
    rw [store_event_organizerIndex]
    simp [hnot, lookupIndex_appendIndex_self]
  · intro e op org
    cases op with
    | init a f => exact ⟨[], by simp [hinit e a f org]⟩
    | reg auths now id org2 pay =>
        cases hres : EventRegistry.register_event auths now e id org2 pay with
        | ok p =>
            obtain ⟨u, e'⟩ := p
            obtain ⟨-, -, he'⟩ := register_event_ok auths now e id org2 pay u e' hres
            obtain ⟨tail, ht⟩ := store_event_index_tail e
              ⟨id, org2, pay, storage.get_platform_fee e, true, now⟩ org
            refine ⟨tail, ?_⟩
            simp only [applyOp, hres]
            rw [he']
            exact ht
        | error fl => exact ⟨[], by simp [applyOp, hres]⟩
    | upd auths id b =>
        cases hres : EventRegistry.update_event_status auths e id b with
        | ok p =>
            obtain ⟨u, e'⟩ := p
            obtain ⟨info, -, -, he'⟩ := update_event_status_ok auths e id b u e' hres
            obtain ⟨tail, ht⟩ := store_event_index_tail e
              { info with is_active := b } org
            refine ⟨tail, ?_⟩
            simp only [applyOp, hres]
            rw [he']
            exact ht
        | error fl => exact ⟨[], by simp [applyOp, hres]⟩
    | setFee auths f => exact ⟨[], by simp [hsetFee auths e f org]⟩
    | storeEv info =>
        obtain ⟨tail, ht⟩ := store_event_index_tail e info org
        exact ⟨tail, ht⟩
    | readPaymentInfo id => exact ⟨[], by simp [applyOp]⟩
    | readEvent id => exact ⟨[], by simp [applyOp]⟩
    | readExists id => exact ⟨[], by simp [applyOp]⟩
    | readOrganizerEvents o => exact ⟨[], by simp [applyOp]⟩
    | readFee => exact ⟨[], by simp [applyOp]⟩
    | readAdmin => exact ⟨[], by simp [applyOp]⟩
  · intro ops auths id b org
    exact upd_index_unchanged auths (runOps Env.empty ops) id b
      (recordsIndexed_runOps ops) org

/-- Witness for C7 (amended): a concrete registration from an empty
index leaves "evt1" present and appends it at the end. -/
theorem C7_organizer_index_witness :
    "evt1" ∈ EventRegistry.get_organizer_events
        ⟨some 1, some 250, [("evt1", ⟨"evt1", 5, 6, 250, true, 100⟩)],
          [(5, ["evt1"])]⟩ 5 ∧
    EventRegistry.get_organizer_events
        ⟨some 1, some 250, [("evt1", ⟨"evt1", 5, 6, 250, true, 100⟩)],
          [(5, ["evt1"])]⟩ 5 =
      EventRegistry.get_organizer_events ⟨some 1, some 250, [], []⟩ 5 ++ ["evt1"] :=
  ⟨C7_organizer_index.1 [5] 100 ⟨some 1, some 250, [], []⟩ "evt1" 5 6
      ⟨some 1, some 250, [("evt1", ⟨"evt1", 5, 6, 250, true, 100⟩)],
        [(5, ["evt1"])]⟩ (by rfl),
   C7_organizer_index.2.1 [5] 100 ⟨some 1, some 250, [], []⟩ "evt1" 5 6
      ⟨some 1, some 250, [("evt1", ⟨"evt1", 5, 6, 250, true, 100⟩)],
        [(5, ["evt1"])]⟩ (by rfl) (by decide)⟩

/-- C8: after a successful `register_event` with ledger timestamp `now`,
an immediately following `get_event` on the same id returns the stored
record, which has `is_active = true` and `created_at = now`. -/
theorem C8_registration_postcondition (auths : List Address) (now : Nat)
    (e e' : Env) (id : String) (org pay : Address)
    (h : EventRegistry.register_event auths now e id org pay = .ok ((), e')) :
    EventRegistry.get_event e' id =
      some ⟨id, org, pay, storage.get_platform_fee e, true, now⟩ ∧
    (EventRegistry.get_event e' id).map EventInfo.is_active = some true ∧
    (EventRegistry.get_event e' id).map EventInfo.created_at = some now := by
  obtain ⟨-, -, he'⟩ := register_event_ok auths now e id org pay () e' h
  subst he'
  have hl := lookupEvent_storeAssoc_self e.events
    ⟨id, org, pay, storage.get_platform_fee e, true, now⟩
  refine ⟨?_, ?_, ?_⟩ <;>
    simp [EventRegistry.get_event, storage.get_event, store_event_events, hl]

/-- Witness for C8 at a concrete registration with timestamp 100. -/
theorem C8_registration_postcondition_witness :
    EventRegistry.get_event
        ⟨some 1, some 250, [("evt1", ⟨"evt1", 5, 6, 250, true, 100⟩)],
          [(5, ["evt1"])]⟩ "evt1" =
      some ⟨"evt1", 5, 6, storage.get_platform_fee ⟨some 1, some 250, [], []⟩,
        true, 100⟩ ∧
    (EventRegistry.get_event
        ⟨some 1, some 250, [("evt1", ⟨"evt1", 5, 6, 250, true, 100⟩)],
          [(5, ["evt1"])]⟩ "evt1").map EventInfo.is_active = some true ∧
    (EventRegistry.get_event
        ⟨some 1, some 250, [("evt1", ⟨"evt1", 5, 6, 250, true, 100⟩)],
          [(5, ["evt1"])]⟩ "evt1").map EventInfo.created_at = some 100 :=
  C8_registration_postcondition [5] 100 ⟨some 1, some 250, [], []⟩
    ⟨some 1, some 250, [("evt1", ⟨"evt1", 5, 6, 250, true, 100⟩)],
      [(5, ["evt1"])]⟩ "evt1" 5 6 (by rfl)

/-- C9: the public `store_event` is a raw overwrite — it is total (no
authorization or existence check can fail, its type is `Env → EventInfo →
Env`), and for every state and record `r`, a subsequent `get_event
r.event_id` returns exactly `r`, even when a record under that id
already existed. -/
theorem C9_store_event_roundtrip (e : Env) (r : EventInfo) :
    EventRegistry.get_event (EventRegistry.store_event e r) r.event_id = some r := by
  simpa [EventRegistry.get_event, storage.get_event, EventRegistry.store_event,
    store_event_events] using lookupEvent_storeAssoc_self e.events r

/-- C10: `event_exists` returns true exactly when `get_event` returns a
record; both are pure reads of the same store. -/
theorem C10_event_exists_iff_get_event (e : Env) (id : String) :
    EventRegistry.event_exists e id = true ↔
      ∃ info, EventRegistry.get_event e id = some info := by
  simp [EventRegistry.event_exists, EventRegistry.get_event,
    storage.event_exists, storage.get_event, containsEvent_eq_isSome,
    Option.isSome_iff_exists]
